import Mathlib

/-!
Verification of the pr-checks decision engine against its specification.

The definitions below are a shallow embedding of the engine that the
TypeScript generators in this repository emit: the check registry and its
validation (src/readers/index.ts), the merge-gate evaluation loop
(src/unnamed/part_004, generateReviewStatusJob), the comment trigger
classifier (src/src/templates/jobs/check-trigger.ts), and the
override/restore protocol (src/unnamed/part_006 and the workflow in
src/src/templates/approval-override.ts).

Modelling conventions:
* Commit-status states, permissions and platform strings are kept as the
  literal strings the emitted shell compares against.
* Timestamps are naturals; the jq sort_by is embedded as a stable
  insertion sort, so ties resolve like jq (later list entry wins).
* Machine strings are manipulated as List Char where the emitted awk and
  sed pipelines operate line by line; intra-line whitespace is the awk
  blank set (space and tab).
-/

namespace PrChecks

/-! ## Data model (src/types/config.ts; the historical snapshot in
src/unnamed/part_009 names the mustRun field `required`) -/

inductive Platform
  | github
  | gitea
deriving DecidableEq, Repr

/-- Category-specific fields of a check: pr-test carries a command and an
optional framework, pr-review carries provider data
(src/src/readers/index.ts, parseCheck). -/
inductive CheckKind
  | test (command : String) (framework : Option String)
  | review (provider : String) (model : Option String)
      (apiKeySecret : Option String) (cliTool : Option String)
      (cliCommand : Option String)
deriving DecidableEq, Repr

structure Check where
  name : String
  trigger : String
  kind : CheckKind
  mustRun : Bool
  mustPass : Bool
  autoRunOn : Option (List String) := none
deriving DecidableEq, Repr

structure InputConfig where
  platform : Platform
  checks : List Check
  ciTrigger : String
  generateApprovalOverride : Bool
  branches : List String
deriving DecidableEq, Repr

/-! ## Commit statuses (host status API; listCommitStatuses entries) -/

structure StatusEntry where
  context : String
  state : String
  description : String
  updatedAt : Nat
deriving DecidableEq, Repr

/-- Stable insert by updatedAt; an incoming element goes before the first
element with an equal or larger key, so later list entries with equal keys
stay behind it, as in jq sort_by. -/
def insertByUpdated (e : StatusEntry) : List StatusEntry → List StatusEntry
  | [] => [e]
  | x :: xs =>
    if e.updatedAt ≤ x.updatedAt then e :: x :: xs else x :: insertByUpdated e xs

/-- Stable sort by updatedAt, the jq `sort_by(.updated_at)` of the emitted
gate script (src/unnamed/part_004). -/
def sortByUpdated : List StatusEntry → List StatusEntry
  | [] => []
  | x :: xs => insertByUpdated x (sortByUpdated xs)

/-- jq `[.[] | select(.context == ctx)] | sort_by(.updated_at) | last`. -/
def latestFor (statuses : List StatusEntry) (ctx : String) : Option StatusEntry :=
  (sortByUpdated (statuses.filter (fun e => e.context == ctx))).getLast?

/-- jq `... | last | .state // "none"`: the state of the most recent status
for a context, or "none" when the context has no entry. -/
def latestState (statuses : List StatusEntry) (ctx : String) : String :=
  ((latestFor statuses ctx).map StatusEntry.state).getD "none"

/-! ## Merge gate evaluation (src/unnamed/part_004, generateReviewStatusJob).
The emitted shell walks the mustRun checks in registry order, setting
GATE_FAILED and overwriting FAILURE_REASON on every failing check. -/

/-- The per-check failing condition of the emitted gate script: for a
mustPass check the latest state must be "success"; otherwise the state must
merely not be "none" or "pending". -/
def checkGateFails (statuses : List StatusEntry) (c : Check) : Bool :=
  if c.mustPass then
    latestState statuses c.name != "success"
  else
    latestState statuses c.name == "none" || latestState statuses c.name == "pending"

/-- FAILURE_REASON text written by the failing branch for a check. -/
def gateFailReason (c : Check) : String :=
  if c.mustPass then c.name ++ " not passed" else c.name ++ " not completed"

/-- The checks the gate job iterates over: `input.checks.filter(c => c.required)`
in part_004 (`required` is the historical name of mustRun). -/
def requiredChecks (cfg : InputConfig) : List Check :=
  cfg.checks.filter (fun c => c.mustRun)

/-- One emitted condition block: a failing check sets GATE_FAILED=true and
overwrites FAILURE_REASON; a passing check leaves both untouched. -/
def gateStep (statuses : List StatusEntry) (acc : Bool × String) (c : Check) :
    Bool × String :=
  if checkGateFails statuses c then (true, gateFailReason c) else acc

/-- The (GATE_FAILED, FAILURE_REASON) pair after all condition blocks ran,
starting from ("false", ""). -/
def evaluateGate (cfg : InputConfig) (statuses : List StatusEntry) : Bool × String :=
  (requiredChecks cfg).foldl (gateStep statuses) (false, "")

def prChecksStatusContext : String := "PR Checks Status"

def approvalRequiredMsg : String := "Approval required"

def allPassedMsg : String := "All required checks passed"

/-- The (state, description) the gate job posts on the aggregate context. -/
def gatePostedStatus (cfg : InputConfig) (statuses : List StatusEntry) :
    String × String :=
  if (evaluateGate cfg statuses).1 then ("failure", approvalRequiredMsg)
  else ("success", allPassedMsg)

/-- Spec-side per-check pass predicate, written from the specification
sentence: mustPass demands latest state success, otherwise the latest state
must lie outside the set of none and pending. -/
def passPredicateSpec (statuses : List StatusEntry) (c : Check) : Prop :=
  if c.mustPass then latestState statuses c.name = "success"
  else latestState statuses c.name ≠ "none" ∧ latestState statuses c.name ≠ "pending"

instance (statuses : List StatusEntry) (c : Check) :
    Decidable (passPredicateSpec statuses c) := by
  unfold passPredicateSpec
  split <;> infer_instance

/-- Right-to-left recursion computing the same (GATE_FAILED, FAILURE_REASON)
pair: a failure among the later checks wins, otherwise the current check
decides.  Used to show the recorded reason is the last failing check. -/
def gateResult (statuses : List StatusEntry) : List Check → Bool × String
  | [] => (false, "")
  | c :: l =>
    let r := gateResult statuses l
    if r.1 then r
    else if checkGateFails statuses c then (true, gateFailReason c) else (false, "")

/-- The last check of l that fails on the given statuses. -/
def lastFailing (statuses : List StatusEntry) (l : List Check) : Option Check :=
  l.reverse.find? (checkGateFails statuses)

/-! ## Line and token machinery for the emitted awk and sed pipelines
(src/src/templates/jobs/check-trigger.ts, Check trigger step). -/

/-- awk intra-line whitespace: space and tab. -/
def isBlankChar (c : Char) : Bool :=
  c == ' ' || c == '\t'

/-- A record with NF = 0, i.e. a line with no field. -/
def isBlankLine (l : List Char) : Bool :=
  l.all isBlankChar

/-- Split a character stream at newline separators; a string with no
newline yields one line, and every newline opens a further line. -/
def splitLines : List Char → List (List Char)
  | [] => [[]]
  | c :: rest =>
    if c = '\n' then [] :: splitLines rest
    else
      match splitLines rest with
      | [] => [[c]]
      | l :: ls => (c :: l) :: ls

/-- Rejoin lines with newline separators. -/
def joinLines : List (List Char) → List Char
  | [] => []
  | [l] => l
  | l :: ls => l ++ '\n' :: joinLines ls

/-- Command substitution strips every trailing newline of a pipeline's
output. -/
def stripTrailingNewlines (l : List Char) : List Char :=
  (l.reverse.dropWhile (fun c => c == '\n')).reverse

/-- awk `$1` of a record: the first field after leading blanks. -/
def firstField (l : List Char) : List Char :=
  (l.dropWhile isBlankChar).takeWhile (fun c => !isBlankChar c)

/-- The two awk sub() calls on the first matched record: drop leading
blanks, then the first field and the blanks following it. -/
def stripTokenWs (l : List Char) : List Char :=
  ((l.dropWhile isBlankChar).dropWhile (fun c => !isBlankChar c)).dropWhile isBlankChar

/-- FIRST_LINE: awk prints the first record with NF > 0 and exits; with no
such record the variable stays empty. -/
def firstNonBlankLine (body : List Char) : List Char :=
  match (splitLines body).dropWhile isBlankLine with
  | [] => []
  | l :: _ => l

/-- FIRST_WORD, the candidate trigger token. -/
def candidateToken (body : List Char) : List Char :=
  firstField (firstNonBlankLine body)

/-! ## Trigger pattern matching.  The generator builds the bash test
`[[ "$FIRST_WORD" =~ ^(t1|...|tn)$ ]]` from the raw trigger words, with
only the first slash of each word escaped.  The words are therefore
interpreted as anchored POSIX extended regular expressions.  The model
covers the ERE fragment of literal characters, backslash escapes and the
dot wildcard; a pattern using any other metacharacter is outside the
fragment and conservatively treated as matching nothing. -/

inductive Atom
  | lit (c : Char)
  | dot
deriving DecidableEq, Repr

/-- ERE metacharacters (the interval braces are written by code point). -/
def ereMeta (c : Char) : Bool :=
  c == '.' || c == '*' || c == '+' || c == '?' || c == '[' || c == ']' ||
  c == '(' || c == ')' || c == '|' || c == '^' || c == '$' || c == '\\' ||
  c == Char.ofNat 123 || c == Char.ofNat 125

/-- Parse a pattern into a sequence of single-character atoms; fails on
metacharacters outside the modelled fragment. -/
def parseAtoms : List Char → Option (List Atom)
  | [] => some []
  | c :: rest =>
    if c = '\\' then
      match rest with
      | [] => none
      | d :: rest2 => (parseAtoms rest2).map (fun as => Atom.lit d :: as)
    else if c = '.' then (parseAtoms rest).map (fun as => Atom.dot :: as)
    else if ereMeta c then none
    else (parseAtoms rest).map (fun as => Atom.lit c :: as)

/-- Anchored match of an atom sequence against a whole token. -/
def matchAtoms : List Atom → List Char → Bool
  | [], [] => true
  | Atom.lit c :: as, d :: ds => c == d && matchAtoms as ds
  | Atom.dot :: as, _ :: ds => matchAtoms as ds
  | _, _ => false

/-- JS `t.replace(sl, escaped)` with string arguments replaces only the
first occurrence: the first slash of the trigger word is escaped. -/
def escapeFirstSlash : List Char → List Char
  | [] => []
  | c :: rest =>
    if c = '/' then '\\' :: '/' :: rest else c :: escapeFirstSlash rest

/-- Whether one trigger word, turned into its emitted pattern, matches the
token under the modelled ERE fragment. -/
def triggerMatches (t : String) (tok : List Char) : Bool :=
  match parseAtoms (escapeFirstSlash t.toList) with
  | some atoms => matchAtoms atoms tok
  | none => false

/-- All registered trigger words: every individual trigger then the
collective ciTrigger, as collected by generateCheckTriggerJob. -/
def allTriggers (cfg : InputConfig) : List String :=
  cfg.checks.map (fun c => c.trigger) ++ [cfg.ciTrigger]

/-- TRIGGER after the matching block: the candidate token when some
registered pattern matches it, empty otherwise; the script then aborts on
an empty TRIGGER, so an empty matched token still never fires. -/
def firedTrigger (cfg : InputConfig) (body : List Char) : Option (List Char) :=
  let tok := candidateToken body
  if tok ≠ [] ∧ (allTriggers cfg).any (fun t => triggerMatches t tok) then some tok
  else none

/-! ## User message extraction and officiality. -/

/-- The lines the USER_MESSAGE awk program prints: records before the first
non-blank one are skipped, the first non-blank record is printed without
its leading blanks and first field only when non-empty, every later record
is printed verbatim. -/
def rawMessageLines (body : List Char) : List (List Char) :=
  match (splitLines body).dropWhile isBlankLine with
  | [] => []
  | first :: rest =>
    let r := stripTokenWs first
    (if r = [] then [] else [r]) ++ rest

/-- USER_MESSAGE: the printed lines joined by newlines, with the trailing
newlines stripped by command substitution. -/
def userMessageChars (body : List Char) : List Char :=
  stripTrailingNewlines (joinLines (rawMessageLines body))

/-- sed strips leading and trailing [[:space:]] of each line. -/
def trimLine (l : List Char) : List Char :=
  ((l.dropWhile isBlankChar).reverse.dropWhile isBlankChar).reverse

/-- USER_MESSAGE_TRIMMED: per-line trim by sed, then tr deletes every
newline. -/
def trimmedMessage (msg : List Char) : List Char :=
  ((splitLines msg).map trimLine).flatten

/-- is_official: true exactly when USER_MESSAGE_TRIMMED came out empty. -/
def isOfficialOf (body : List Char) : Bool :=
  (trimmedMessage (userMessageChars body)).isEmpty

/-- Whitespace for the spec-side surrounding trim: blanks or newlines. -/
def isWsChar (c : Char) : Bool :=
  isBlankChar c || c == '\n'

/-- Spec-side trim of surrounding whitespace of the whole message. -/
def specTrim (l : List Char) : List Char :=
  ((l.dropWhile isWsChar).reverse.dropWhile isWsChar).reverse

/-! ## Comment classification (check-trigger job, issue_comment branch). -/

structure CommentEvent where
  issueIsPr : Bool
  prNumber : String
  commenter : String
  body : String
deriving Repr

/-- Host reads the classifier performs: the collaborators permission call
(none models a failed call or empty output), and the pull-request fetch
used to resolve the head SHA. -/
structure HostResponses where
  permission : Option String
  prHttpCode : Nat
  prHeadSha : Option String
deriving Repr

structure Decision where
  shouldContinue : Bool
  prNumber : String := ""
  headSha : String := ""
  trigger : String := ""
  userMessage : String := ""
  isOfficial : Bool := true
deriving DecidableEq, Repr

/-- The PERMISSION variable after the platform-specific block: on github
the collaborators lookup result, aborting (none) when the call failed or
printed nothing; on gitea the lookup is not emitted at all and PERMISSION
is the constant "write". -/
def permissionValue (platform : Platform) (host : HostResponses) : Option String :=
  match platform with
  | Platform.github =>
    match host.permission with
    | none => none
    | some p => if p = "" then none else some p
  | Platform.gitea => some "write"

/-- The bash test `^(owner|admin|maintain|write)$` on PERMISSION. -/
def permittedLevel (p : String) : Bool :=
  p == "owner" || p == "admin" || p == "maintain" || p == "write"

/-- Whether the permission gate lets the comment through. -/
def permGatePasses (cfg : InputConfig) (host : HostResponses) : Bool :=
  match permissionValue cfg.platform host with
  | none => false
  | some p => permittedLevel p

/-- The comment branch of the check-trigger step, following the emitted
script order: PR-comment test, permission gate, trigger matching, user
message extraction (its outputs are written before the later aborts),
PR number guard, then the head-SHA fetch guarded on HTTP 200 and a
non-empty `.head.sha`.  The user_message output is transported
base64-encoded by the script and decoded downstream; the Decision carries
the decoded value. -/
def classifyComment (cfg : InputConfig) (ev : CommentEvent) (host : HostResponses) :
    Decision :=
  if !ev.issueIsPr then { shouldContinue := false }
  else if !permGatePasses cfg host then { shouldContinue := false }
  else
    match firedTrigger cfg ev.body.toList with
    | none => { shouldContinue := false }
    | some trig =>
      let um := String.mk (userMessageChars ev.body.toList)
      let official := isOfficialOf ev.body.toList
      if ev.prNumber = "" then
        { shouldContinue := false, userMessage := um, isOfficial := official }
      else if host.prHttpCode ≠ 200 then
        { shouldContinue := false, userMessage := um, isOfficial := official }
      else
        match host.prHeadSha with
        | none => { shouldContinue := false, userMessage := um, isOfficial := official }
        | some sha =>
          if sha = "" then
            { shouldContinue := false, userMessage := um, isOfficial := official }
          else
            { shouldContinue := true, prNumber := ev.prNumber, headSha := sha,
              trigger := String.mk trig, userMessage := um, isOfficial := official }

/-! ## Override / restore protocol (src/unnamed/part_006, the approval
override workflow of src/src/templates/approval-override.ts, and the
constants of src/src/templates/constants). -/

structure ReviewEvent where
  action : String
  reviewState : String
  baseRef : String
  reviewerLogin : String
  prNumber : String
  headSha : String
deriving Repr

/-- Visible host writes a job performs. -/
inductive HostAction
  | setStatus (context state description : String)
  | postComment (prNumber : String)
deriving DecidableEq, Repr

def OVERRIDE_DESCRIPTION : String := "Overridden by approval"

def OVERRIDE_KEYWORD : String := "Overridden"

/-- The override-gate job if-condition: a submitted approved review whose
base ref is one of the configured branches. -/
def overrideJobTriggered (cfg : InputConfig) (ev : ReviewEvent) : Bool :=
  ev.action == "submitted" && ev.reviewState == "approved" &&
    cfg.branches.any (fun b => ev.baseRef == b)

/-- The override-gate run step: read the latest aggregate gate status; when
it is not success, post a success status carrying the override description
and the approver, and notify on the PR; otherwise do nothing. -/
def overrideGateRun (ev : ReviewEvent) (statuses : List StatusEntry) :
    List HostAction :=
  if latestState statuses prChecksStatusContext != "success" then
    [HostAction.setStatus prChecksStatusContext "success"
       (OVERRIDE_DESCRIPTION ++ " (@" ++ ev.reviewerLogin ++ ")"),
     HostAction.postComment ev.prNumber]
  else []

/-- The whole override-gate job, condition included. -/
def overrideGateJob (cfg : InputConfig) (ev : ReviewEvent)
    (statuses : List StatusEntry) : List HostAction :=
  if overrideJobTriggered cfg ev then overrideGateRun ev statuses else []

/-- One review of the PR as returned by the reviews endpoint. -/
structure Review where
  state : String
deriving Repr

/-- Anchored prefix test on character lists. -/
def listStarts : List Char → List Char → Bool
  | [], _ => true
  | _ :: _, [] => false
  | p :: ps, c :: cs => p == c && listStarts ps cs

/-- Substring test on character lists. -/
def listHasSub (pat : List Char) : List Char → Bool
  | [] => listStarts pat []
  | c :: rest => listStarts pat (c :: rest) || listHasSub pat rest

/-- Whether a gate description carries the override keyword. -/
def descHasOverrideKeyword (d : String) : Bool :=
  listHasSub OVERRIDE_KEYWORD.toList d.toList

/-- Modelled from the spec: generateRestoreGateJob (a restore-gate.ts
module) is not among the provided sources; only its re-export
(src/unnamed/part_007), its caller (src/src/templates/approval-override.ts)
and its tests (src/tests/templates.test.ts) are.  Following section 4.4 of
the specification: on a dismissal, first re-query the reviews and do
nothing when any other approved review remains; otherwise read the current
gate status and restore only when it is success and its description carries
the override marker; re-evaluate every mandatory check, and when any still
fails write the gate back to failure with the standard approval-required
description and notify, else leave it untouched. -/
def restoreGateRun (cfg : InputConfig) (ev : ReviewEvent) (reviews : List Review)
    (statuses : List StatusEntry) : List HostAction :=
  if reviews.any (fun r => r.state == "APPROVED") then []
  else
    match latestFor statuses prChecksStatusContext with
    | none => []
    | some g =>
      if g.state == "success" && descHasOverrideKeyword g.description then
        if (evaluateGate cfg statuses).1 then
          [HostAction.setStatus prChecksStatusContext "failure" approvalRequiredMsg,
           HostAction.postComment ev.prNumber]
        else []
      else []

/-- Modelled from the spec: the restore transition is triggered by a review
dismissal event. -/
def restoreGateJob (cfg : InputConfig) (ev : ReviewEvent) (reviews : List Review)
    (statuses : List StatusEntry) : List HostAction :=
  if ev.action == "dismissed" then restoreGateRun cfg ev reviews statuses else []

/-! ## Raw configuration reading (src/src/readers/index.ts).  Raw YAML
values are modelled at the type each reader coerces them to: optional
strings for string fields, optional booleans for the yn-parsed flags. -/

structure RawCheck where
  type : Option String := none
  name : Option String := none
  trigger : Option String := none
  mustRun : Option Bool := none
  mustPass : Option Bool := none
  autoRunOn : Option (List String) := none
  command : Option String := none
  framework : Option String := none
  provider : Option String := none
  model : Option String := none
  apiKeySecret : Option String := none
  cliTool : Option String := none
  cliCommand : Option String := none
deriving Repr

structure RawConfig where
  platform : Option String := none
  checks : Option (List RawCheck) := none
  ciTrigger : Option String := none
  generateApprovalOverride : Option Bool := none
  branches : Option (List String) := none
deriving Repr

/-- JS String.prototype.trim whitespace set, restricted to the characters
the model manipulates. -/
def jsTrim (s : String) : String :=
  String.mk (((s.toList.dropWhile isWsChar).reverse.dropWhile isWsChar).reverse)

def parseStringD (v : Option String) (d : String) : String :=
  v.getD d

def parseBooleanD (v : Option Bool) (d : Bool) : Bool :=
  v.getD d

/-- JS String.prototype.toLowerCase, modelled characterwise. -/
def lowerString (s : String) : String :=
  String.mk (s.toList.map Char.toLower)

/-- parsePlatform: absent values fall back to the default, present string
values are lowercased and kept only when github or gitea, anything else
falls back to the default. -/
def parsePlatform (v : Option String) (d : Platform) : Platform :=
  match v with
  | none => d
  | some s =>
    let t := lowerString s
    if t = "github" then Platform.github
    else if t = "gitea" then Platform.gitea
    else d

def isLowerAlpha (c : Char) : Bool :=
  'a' ≤ c && c ≤ 'z'

def isDigitChar (c : Char) : Bool :=
  '0' ≤ c && c ≤ '9'

/-- The name pattern of parseCheck: a lowercase letter, then lowercase
letters, digits, hyphens or underscores. -/
def nameOk (s : String) : Bool :=
  match s.toList with
  | [] => false
  | c :: rest =>
    isLowerAlpha c && rest.all (fun d => isLowerAlpha d || isDigitChar d || d == '-' || d == '_')

/-- A JS falsy-or-blank string field: absent, empty, or trimming to
empty. -/
def strMissing (v : Option String) : Bool :=
  match v with
  | none => true
  | some s => s == "" || jsTrim s == ""

/-- parseCheck of src/src/readers/index.ts (the setupSteps decoration of
readConfig is presentation-only and not part of the decision model). -/
def parseCheck (i : Nat) (raw : RawCheck) : Except String Check :=
  match raw.type with
  | none => Except.error ("checks." ++ toString i ++ ".type is required")
  | some ty =>
    if ty = "" then Except.error ("checks." ++ toString i ++ ".type is required")
    else if strMissing raw.name then
      Except.error ("checks." ++ toString i ++ ".name is required")
    else
      let name := jsTrim (raw.name.getD "")
      if !nameOk name then
        Except.error ("checks." ++ toString i ++ ".name is invalid")
      else if strMissing raw.trigger then
        Except.error ("checks." ++ toString i ++ ".trigger is required")
      else
        let trigger := jsTrim (raw.trigger.getD "")
        let mustRun := parseBooleanD raw.mustRun true
        let mustPass := parseBooleanD raw.mustPass false
        if ty = "pr-test" then
          if strMissing raw.command then
            Except.error ("checks." ++ toString i ++ ".command is required")
          else
            Except.ok
              { name := name, trigger := trigger,
                kind := CheckKind.test (jsTrim (raw.command.getD "")) raw.framework,
                mustRun := mustRun, mustPass := mustPass, autoRunOn := raw.autoRunOn }
        else if ty = "pr-review" then
          let provider := raw.provider.getD "bedrock"
          let model :=
            if provider = "bedrock" then some (parseStringD raw.model "") else none
          let apiKeySecret :=
            if provider = "bedrock" then some (parseStringD raw.apiKeySecret "") else none
          let cliTool := if provider = "cli" then raw.cliTool else none
          let cliCommand :=
            if provider = "cli" then
              let s := jsTrim (parseStringD raw.cliCommand "")
              if s = "" then none else some s
            else none
          Except.ok
            { name := name, trigger := trigger,
              kind := CheckKind.review provider model apiKeySecret cliTool cliCommand,
              mustRun := mustRun, mustPass := mustPass, autoRunOn := raw.autoRunOn }
        else Except.error ("checks." ++ toString i ++ ".type is unsupported")

def parseChecksFrom (i : Nat) : List RawCheck → Except String (List Check)
  | [] => Except.ok []
  | r :: rs =>
    match parseCheck i r with
    | Except.error e => Except.error e
    | Except.ok c =>
      match parseChecksFrom (i + 1) rs with
      | Except.error e => Except.error e
      | Except.ok cs => Except.ok (c :: cs)

/-- The default checks of DEFAULT_INPUT_CONFIG (src/unnamed/part_009; the
snapshot names mustRun `required`). -/
def defaultChecks : List Check :=
  [ { name := "pr-test", trigger := "/test",
      kind := CheckKind.test "npm test" (some "node"),
      mustRun := true, mustPass := true },
    { name := "pr-review", trigger := "/review",
      kind := CheckKind.review "bedrock" (some "us.amazon.nova-micro-v1:0")
        (some "BEDROCK_API_KEY") none none,
      mustRun := true, mustPass := false } ]

/-- The checks part of mergeWithDefaults: a present non-empty array is
parsed, anything else falls back to the default checks. -/
def parsedRawChecks (raw : RawConfig) : Except String (List Check) :=
  match raw.checks with
  | some l => if l.length > 0 then parseChecksFrom 0 l else Except.ok defaultChecks
  | none => Except.ok defaultChecks

/-- mergeWithDefaults: the checks array is parsed when present and
non-empty, else the defaults are cloned; platform, ciTrigger, the override
flag and branches each fall back to their defaults. -/
def mergeWithDefaults (raw : RawConfig) : Except String InputConfig :=
  match parsedRawChecks raw with
  | Except.error e => Except.error e
  | Except.ok checks =>
    Except.ok
      { platform := parsePlatform raw.platform Platform.github,
        checks := checks,
        ciTrigger := parseStringD raw.ciTrigger "/checks",
        generateApprovalOverride := parseBooleanD raw.generateApprovalOverride true,
        branches := raw.branches.getD ["main", "master"] }

/-- Whether some element of the list occurs again later in it. -/
def hasDup : List String → Bool
  | [] => false
  | x :: xs => xs.contains x || hasDup xs

def startsWithSlash (s : String) : Bool :=
  s.toList.head? == some '/'

def validFrameworks : List String :=
  ["node", "python", "go", "rust", "custom"]

def validCliTools : List String :=
  ["claude", "codex", "gemini", "kiro"]

/-- The per-check loop body of validateConfig. -/
def validateCheckAt (i : Nat) (c : Check) : Except String Unit :=
  if jsTrim c.name = "" then
    Except.error ("checks." ++ toString i ++ ".name is required")
  else if !startsWithSlash c.trigger then
    Except.error ("checks." ++ toString i ++ ".trigger must start with a slash")
  else
    match c.kind with
    | CheckKind.test cmd fw =>
      if jsTrim cmd = "" then
        Except.error ("checks." ++ toString i ++ ".command is required")
      else
        match fw with
        | none => Except.ok ()
        | some f =>
          if validFrameworks.contains f then Except.ok ()
          else Except.error ("checks." ++ toString i ++ ".framework is unsupported")
    | CheckKind.review provider model apiKeySecret cliTool cliCommand =>
      if !(provider = "bedrock" || provider = "cli") then
        Except.error ("checks." ++ toString i ++ ".provider is unsupported")
      else if provider = "bedrock" then
        if strMissing model then
          Except.error ("checks." ++ toString i ++ ".model is required for bedrock")
        else if strMissing apiKeySecret then
          Except.error ("checks." ++ toString i ++ ".apiKeySecret is required for bedrock")
        else Except.ok ()
      else
        match cliCommand with
        | some _ => Except.ok ()
        | none =>
          match cliTool with
          | none => Except.error ("checks." ++ toString i ++ ".cliTool is required")
          | some t =>
            if validCliTools.contains t then Except.ok ()
            else Except.error ("checks." ++ toString i ++ ".cliTool is invalid")

def validateChecksFrom (i : Nat) : List Check → Except String Unit
  | [] => Except.ok ()
  | c :: cs =>
    match validateCheckAt i c with
    | Except.error e => Except.error e
    | Except.ok _ => validateChecksFrom (i + 1) cs

/-- validateConfig of src/src/readers/index.ts: non-empty checks, no
duplicate name, no duplicate trigger, no collision of the collective
ciTrigger with an individual trigger, per-check field validation, the
sentinel prefix on ciTrigger, and non-empty branches. -/
def validateConfig (cfg : InputConfig) : Except String Unit :=
  if cfg.checks.isEmpty then Except.error "at least one check is required"
  else if hasDup (cfg.checks.map (fun c => c.name)) then
    Except.error "duplicate check name"
  else if hasDup (cfg.checks.map (fun c => c.trigger)) then
    Except.error "duplicate trigger"
  else if (cfg.checks.map (fun c => c.trigger)).contains cfg.ciTrigger then
    Except.error "ciTrigger collides with an individual trigger"
  else
    match validateChecksFrom 0 cfg.checks with
    | Except.error e => Except.error e
    | Except.ok _ =>
      if !startsWithSlash cfg.ciTrigger then
        Except.error "ciTrigger must start with a slash"
      else if cfg.branches.isEmpty then
        Except.error "at least one branch is required"
      else Except.ok ()

/-- Registry construction as readConfig performs it on a present config
file: merge the raw values with the defaults, then validate. -/
def buildRegistry (raw : RawConfig) : Except String InputConfig :=
  match mergeWithDefaults raw with
  | Except.error e => Except.error e
  | Except.ok cfg =>
    match validateConfig cfg with
    | Except.error e => Except.error e
    | Except.ok _ => Except.ok cfg

/-! ## Theorems -/

theorem latestState_of_no_entry (st : List StatusEntry) (ctx : String)
    (h : ∀ e ∈ st, e.context ≠ ctx) : latestState st ctx = "none" := by
  have hfil : st.filter (fun e => e.context == ctx) = [] := by
    rw [List.filter_eq_nil_iff]
    intro e he
    simpa using h e he
  simp [latestState, latestFor, hfil, sortByUpdated]

/-- C1: a mustRun check's gate condition passes exactly when the spec's
per-check pass predicate holds of the most recent status for its context,
and a check with no recorded status never passes. -/
theorem gate_pass_predicate (c : Check) (st : List StatusEntry)
    (_hRun : c.mustRun = true) :
    (checkGateFails st c = false ↔ passPredicateSpec st c) ∧
    ((∀ e ∈ st, e.context ≠ c.name) → checkGateFails st c = true) := by
  constructor
  · cases hp : c.mustPass <;>
      simp [checkGateFails, passPredicateSpec, hp, bne, not_or]
  · intro h
    have hn := latestState_of_no_entry st c.name h
    cases hp : c.mustPass <;> simp [checkGateFails, hp, hn, bne]

/-- Witness for gate_pass_predicate at a concrete mustRun check and a
two-entry history whose most recent entry is a success. -/
theorem gate_pass_predicate_witness :
    ({ name := "unit", trigger := "/u", kind := CheckKind.test "t" none,
       mustRun := true, mustPass := true } : Check).mustRun = true ∧
    ((checkGateFails
        [⟨"unit", "failure", "", 1⟩, ⟨"unit", "success", "", 2⟩]
        { name := "unit", trigger := "/u", kind := CheckKind.test "t" none,
          mustRun := true, mustPass := true } = false ↔
      passPredicateSpec
        [⟨"unit", "failure", "", 1⟩, ⟨"unit", "success", "", 2⟩]
        { name := "unit", trigger := "/u", kind := CheckKind.test "t" none,
          mustRun := true, mustPass := true }) ∧
     ((∀ e ∈ [(⟨"unit", "failure", "", 1⟩ : StatusEntry),
              ⟨"unit", "success", "", 2⟩],
         e.context ≠ "unit") → checkGateFails
        [⟨"unit", "failure", "", 1⟩, ⟨"unit", "success", "", 2⟩]
        { name := "unit", trigger := "/u", kind := CheckKind.test "t" none,
          mustRun := true, mustPass := true } = true)) :=
  ⟨by decide,
   gate_pass_predicate
     { name := "unit", trigger := "/u", kind := CheckKind.test "t" none,
       mustRun := true, mustPass := true }
     [⟨"unit", "failure", "", 1⟩, ⟨"unit", "success", "", 2⟩] (by decide)⟩

theorem gate_foldl_eq (st : List StatusEntry) :
    ∀ (l : List Check) (acc : Bool × String),
      l.foldl (gateStep st) acc =
        if (gateResult st l).1 then gateResult st l else acc := by
  intro l
  induction l with
  | nil => intro acc; simp [gateResult]
  | cons c l ih =>
    intro acc
    by_cases h1 : (gateResult st l).1 = true <;>
      by_cases h2 : checkGateFails st c = true <;>
        simp [List.foldl_cons, ih, gateResult, gateStep, h1, h2]

theorem gateResult_eq_lastFailing (st : List StatusEntry) :
    ∀ l : List Check,
      gateResult st l =
        match lastFailing st l with
        | some c => (true, gateFailReason c)
        | none => (false, "") := by
  intro l
  induction l with
  | nil => simp [gateResult, lastFailing]
  | cons c l ih =>
    rw [show lastFailing st (c :: l) =
          (List.find? (checkGateFails st) l.reverse).or
            (List.find? (checkGateFails st) [c]) by
        simp [lastFailing, List.find?_append]]
    cases hf : List.find? (checkGateFails st) l.reverse with
    | some d =>
      have : (gateResult st l) = (true, gateFailReason d) := by
        rw [ih]; simp [lastFailing, hf]
      simp [gateResult, this, Option.or]
    | none =>
      have hres : (gateResult st l) = (false, "") := by
        rw [ih]; simp [lastFailing, hf]
      by_cases h2 : checkGateFails st c = true <;>
        simp [gateResult, hres, Option.or, List.find?, h2]

theorem evaluateGate_eq (cfg : InputConfig) (st : List StatusEntry) :
    evaluateGate cfg st =
      match lastFailing st (requiredChecks cfg) with
      | some c => (true, gateFailReason c)
      | none => (false, "") := by
  rw [evaluateGate, gate_foldl_eq, gateResult_eq_lastFailing]
  cases hf : lastFailing st (requiredChecks cfg) <;> simp

/-- C2 counterexample: with two mandatory mustPass checks and an empty
status history the first failing check in evaluation order is the first
check, but the recorded failure reason names the second (last) one. -/
theorem gate_first_reason_counterexample :
    (requiredChecks
        { platform := Platform.github,
          checks :=
            [{ name := "a", trigger := "/a", kind := CheckKind.test "x" none,
               mustRun := true, mustPass := true },
             { name := "b", trigger := "/b", kind := CheckKind.test "y" none,
               mustRun := true, mustPass := true }],
          ciTrigger := "/checks", generateApprovalOverride := true,
          branches := ["main"] }).find? (checkGateFails []) =
      some { name := "a", trigger := "/a", kind := CheckKind.test "x" none,
             mustRun := true, mustPass := true } ∧
    (evaluateGate
        { platform := Platform.github,
          checks :=
            [{ name := "a", trigger := "/a", kind := CheckKind.test "x" none,
               mustRun := true, mustPass := true },
             { name := "b", trigger := "/b", kind := CheckKind.test "y" none,
               mustRun := true, mustPass := true }],
          ciTrigger := "/checks", generateApprovalOverride := true,
          branches := ["main"] } []).2 = "b not passed" ∧
    gateFailReason
        { name := "a", trigger := "/a", kind := CheckKind.test "x" none,
          mustRun := true, mustPass := true } = "a not passed" ∧
    ("b not passed" : String) ≠ "a not passed" := by
  refine ⟨by decide, by decide, by decide, by decide⟩

/-- C2 (amended): whenever some mandatory check fails its pass predicate,
the gate verdict is failure, the posted aggregate status is the failure
state with the approval-required description, and the recorded failure
reason is that of the last failing check in evaluation order. -/
theorem gate_reason_last_failing (cfg : InputConfig) (st : List StatusEntry)
    (c : Check) (hmem : c ∈ requiredChecks cfg)
    (hfail : checkGateFails st c = true) :
    (evaluateGate cfg st).1 = true ∧
    gatePostedStatus cfg st = ("failure", approvalRequiredMsg) ∧
    ∃ d, lastFailing st (requiredChecks cfg) = some d ∧
      evaluateGate cfg st = (true, gateFailReason d) := by
  have hsome : (List.find? (checkGateFails st) (requiredChecks cfg).reverse).isSome := by
    rw [List.find?_isSome]
    exact ⟨c, List.mem_reverse.mpr hmem, hfail⟩
  obtain ⟨d, hd⟩ := Option.isSome_iff_exists.mp hsome
  have hlast : lastFailing st (requiredChecks cfg) = some d := hd
  have heval : evaluateGate cfg st = (true, gateFailReason d) := by
    rw [evaluateGate_eq, hlast]
  refine ⟨by rw [heval], ?_, d, hlast, heval⟩
  rw [gatePostedStatus, heval]
  simp

/-- Witness for gate_reason_last_failing at a one-check registry with an
empty status history. -/
theorem gate_reason_last_failing_witness :
    ({ name := "a", trigger := "/a", kind := CheckKind.test "x" none,
       mustRun := true, mustPass := true } : Check) ∈
      requiredChecks
        { platform := Platform.github,
          checks := [{ name := "a", trigger := "/a",
                       kind := CheckKind.test "x" none,
                       mustRun := true, mustPass := true }],
          ciTrigger := "/checks", generateApprovalOverride := true,
          branches := ["main"] } ∧
    ((evaluateGate
        { platform := Platform.github,
          checks := [{ name := "a", trigger := "/a",
                       kind := CheckKind.test "x" none,
                       mustRun := true, mustPass := true }],
          ciTrigger := "/checks", generateApprovalOverride := true,
          branches := ["main"] } []).1 = true ∧
     gatePostedStatus
        { platform := Platform.github,
          checks := [{ name := "a", trigger := "/a",
                       kind := CheckKind.test "x" none,
                       mustRun := true, mustPass := true }],
          ciTrigger := "/checks", generateApprovalOverride := true,
          branches := ["main"] } [] = ("failure", approvalRequiredMsg) ∧
     ∃ d, lastFailing []
        (requiredChecks
          { platform := Platform.github,
            checks := [{ name := "a", trigger := "/a",
                         kind := CheckKind.test "x" none,
                         mustRun := true, mustPass := true }],
            ciTrigger := "/checks", generateApprovalOverride := true,
            branches := ["main"] }) = some d ∧
       evaluateGate
          { platform := Platform.github,
            checks := [{ name := "a", trigger := "/a",
                         kind := CheckKind.test "x" none,
                         mustRun := true, mustPass := true }],
            ciTrigger := "/checks", generateApprovalOverride := true,
            branches := ["main"] } [] = (true, gateFailReason d)) :=
  ⟨by decide,
   gate_reason_last_failing
     { platform := Platform.github,
       checks := [{ name := "a", trigger := "/a",
                    kind := CheckKind.test "x" none,
                    mustRun := true, mustPass := true }],
       ciTrigger := "/checks", generateApprovalOverride := true,
       branches := ["main"] } []
     { name := "a", trigger := "/a", kind := CheckKind.test "x" none,
       mustRun := true, mustPass := true }
     (by decide) (by decide)⟩

theorem hasDup_eq_false_iff (l : List String) : hasDup l = false ↔ l.Nodup := by
  induction l with
  | nil => simp [hasDup]
  | cons x xs ih => simp [hasDup, List.nodup_cons, ih]

theorem contains_eq_false_iff (l : List String) (a : String) :
    l.contains a = false ↔ a ∉ l := by
  simp

theorem validateConfig_ok_triggers (cfg : InputConfig)
    (h : validateConfig cfg = Except.ok ()) :
    hasDup (cfg.checks.map (fun c => c.trigger)) = false ∧
    (cfg.checks.map (fun c => c.trigger)).contains cfg.ciTrigger = false := by
  by_cases hempty : cfg.checks.isEmpty = true
  · rw [validateConfig, if_pos hempty] at h; cases h
  · rw [validateConfig, if_neg hempty] at h
    by_cases hdn : hasDup (cfg.checks.map (fun c => c.name)) = true
    · rw [if_pos hdn] at h; cases h
    · rw [if_neg hdn] at h
      by_cases hdt : hasDup (cfg.checks.map (fun c => c.trigger)) = true
      · rw [if_pos hdt] at h; cases h
      · rw [if_neg hdt] at h
        by_cases hct :
            (cfg.checks.map (fun c => c.trigger)).contains cfg.ciTrigger = true
        · rw [if_pos hct] at h; cases h
        · exact ⟨by simpa using hdt, by simpa using hct⟩

/-- C8: a raw configuration builds a registry only when the individual
trigger words are pairwise distinct and the collective ciTrigger collides
with none of them, and validation of any configuration with a trigger
collision always yields an error. -/
theorem registry_trigger_uniqueness :
    (∀ (raw : RawConfig) (cfg : InputConfig), buildRegistry raw = Except.ok cfg →
      (cfg.checks.map (fun c => c.trigger)).Nodup ∧
      cfg.ciTrigger ∉ cfg.checks.map (fun c => c.trigger)) ∧
    (∀ cfg : InputConfig,
      (¬ (cfg.checks.map (fun c => c.trigger)).Nodup ∨
        cfg.ciTrigger ∈ cfg.checks.map (fun c => c.trigger)) →
      ∃ e, validateConfig cfg = Except.error e) := by
  constructor
  · intro raw cfg h
    rw [buildRegistry] at h
    cases hm : mergeWithDefaults raw with
    | error e => rw [hm] at h; exact Except.noConfusion h
    | ok cfg0 =>
      simp only [hm] at h
      cases hv : validateConfig cfg0 with
      | error e =>
        simp only [hv] at h
        exact Except.noConfusion h
      | ok u =>
        simp only [hv] at h
        injection h with h
        subst h
        cases u
        obtain ⟨h1, h2⟩ := validateConfig_ok_triggers cfg0 hv
        exact ⟨(hasDup_eq_false_iff _).mp h1, (contains_eq_false_iff _ _).mp h2⟩
  · intro cfg hcol
    cases hv : validateConfig cfg with
    | error e => exact ⟨e, rfl⟩
    | ok u =>
      cases u
      obtain ⟨h1, h2⟩ := validateConfig_ok_triggers cfg hv
      rcases hcol with hnd | hmem
      · exact absurd ((hasDup_eq_false_iff _).mp h1) hnd
      · exact absurd hmem ((contains_eq_false_iff _ _).mp h2)

/-- Witness for registry_trigger_uniqueness: a one-check raw configuration
that builds, and a collision configuration that fails validation. -/
theorem registry_trigger_uniqueness_witness :
    (((buildRegistry
        { checks := some [{ type := some "pr-test", name := some "t",
                            trigger := some "/t",
                            command := some "npm test" }] } :
          Except String InputConfig) =
        Except.ok
          { platform := Platform.github,
            checks := [{ name := "t", trigger := "/t",
                         kind := CheckKind.test "npm test" none,
                         mustRun := true, mustPass := false }],
            ciTrigger := "/checks", generateApprovalOverride := true,
            branches := ["main", "master"] }) ∧
      (([{ name := "t", trigger := "/t",
           kind := CheckKind.test "npm test" none,
           mustRun := true, mustPass := false }] :
            List Check).map (fun c => c.trigger)).Nodup ∧
      ("/checks" : String) ∉
        ([{ name := "t", trigger := "/t",
            kind := CheckKind.test "npm test" none,
            mustRun := true, mustPass := false }] :
             List Check).map (fun c => c.trigger)) ∧
    ∃ e, validateConfig
        { platform := Platform.github,
          checks :=
            [{ name := "a", trigger := "/same", kind := CheckKind.test "x" none,
               mustRun := true, mustPass := true },
             { name := "b", trigger := "/same", kind := CheckKind.test "y" none,
               mustRun := true, mustPass := true }],
          ciTrigger := "/checks", generateApprovalOverride := true,
          branches := ["main"] } = Except.error e :=
  ⟨⟨by rfl,
    (registry_trigger_uniqueness.1
      { checks := some [{ type := some "pr-test", name := some "t",
                          trigger := some "/t",
                          command := some "npm test" }] }
      { platform := Platform.github,
        checks := [{ name := "t", trigger := "/t",
                     kind := CheckKind.test "npm test" none,
                     mustRun := true, mustPass := false }],
        ciTrigger := "/checks", generateApprovalOverride := true,
        branches := ["main", "master"] } (by rfl))⟩,
   registry_trigger_uniqueness.2
     { platform := Platform.github,
       checks :=
         [{ name := "a", trigger := "/same", kind := CheckKind.test "x" none,
            mustRun := true, mustPass := true },
          { name := "b", trigger := "/same", kind := CheckKind.test "y" none,
            mustRun := true, mustPass := true }],
       ciTrigger := "/checks", generateApprovalOverride := true,
       branches := ["main"] } (Or.inl (by decide))⟩

/-- C10: a present platform value that lowercases to neither github nor
gitea is silently replaced by the default github; the platform field never
decides whether configuration reading succeeds, and on success the read
platform is exactly the parsePlatform fallback value. -/
theorem platform_default_fallback :
    (∀ s : String, lowerString s ≠ "github" → lowerString s ≠ "gitea" →
      parsePlatform (some s) Platform.github = Platform.github) ∧
    (∀ (raw : RawConfig) (v : Option String),
      (mergeWithDefaults raw).isOk =
        (mergeWithDefaults { raw with platform := v }).isOk) ∧
    (∀ (raw : RawConfig) (cfg : InputConfig),
      mergeWithDefaults raw = Except.ok cfg →
      cfg.platform = parsePlatform raw.platform Platform.github) := by
  refine ⟨?_, ?_, ?_⟩
  · intro s h1 h2
    simp only [parsePlatform]
    rw [if_neg h1, if_neg h2]
  · intro raw v
    have hch : parsedRawChecks { raw with platform := v } = parsedRawChecks raw := by
      cases raw; rfl
    rw [mergeWithDefaults, mergeWithDefaults, hch]
    cases parsedRawChecks raw <;> rfl
  · intro raw cfg h
    rw [mergeWithDefaults] at h
    cases hch : parsedRawChecks raw with
    | error e => rw [hch] at h; cases h
    | ok checks => rw [hch] at h; cases h; rfl

/-- Witness for platform_default_fallback at the platform string
bitbucket. -/
theorem platform_default_fallback_witness :
    (lowerString "bitbucket" ≠ "github" ∧
      lowerString "bitbucket" ≠ "gitea" ∧
      parsePlatform (some "bitbucket") Platform.github = Platform.github) ∧
    (mergeWithDefaults { platform := some "bitbucket" }).isOk =
      (mergeWithDefaults
        { platform := some "bitbucket", checks := none,
          ciTrigger := none, generateApprovalOverride := none,
          branches := none }).isOk ∧
    ((mergeWithDefaults { platform := some "bitbucket" } :
        Except String InputConfig) =
      Except.ok
        { platform := Platform.github, checks := defaultChecks,
          ciTrigger := "/checks", generateApprovalOverride := true,
          branches := ["main", "master"] } →
      ({ platform := Platform.github, checks := defaultChecks,
         ciTrigger := "/checks", generateApprovalOverride := true,
         branches := ["main", "master"] } : InputConfig).platform =
        parsePlatform (some "bitbucket") Platform.github) :=
  ⟨⟨by decide, by decide,
    platform_default_fallback.1 "bitbucket" (by decide) (by decide)⟩,
   platform_default_fallback.2.1 { platform := some "bitbucket" } none,
   platform_default_fallback.2.2 { platform := some "bitbucket" }
     { platform := Platform.github, checks := defaultChecks,
       ciTrigger := "/checks", generateApprovalOverride := true,
       branches := ["main", "master"] }⟩

theorem parseAtoms_literal (l : List Char) (h : ∀ c ∈ l, ereMeta c = false) :
    parseAtoms l = some (l.map Atom.lit) := by
  induction l with
  | nil => rfl
  | cons c rest ih =>
    have hc : ereMeta c = false := h c (List.mem_cons_self c rest)
    have hbs : ¬(c = '\\') := fun he => by simp [he, ereMeta] at hc
    have hdot : ¬(c = '.') := fun he => by simp [he, ereMeta] at hc
    have hrest : parseAtoms rest = some (rest.map Atom.lit) :=
      ih (fun d hd => h d (List.mem_cons_of_mem c hd))
    rw [parseAtoms.eq_def]
    simp [hbs, hdot, hc, hrest]

theorem parseAtoms_escaped_literal (l : List Char)
    (h : ∀ c ∈ l, ereMeta c = false) :
    parseAtoms (escapeFirstSlash l) = some (l.map Atom.lit) := by
  induction l with
  | nil => rfl
  | cons c rest ih =>
    have hc : ereMeta c = false := h c (List.mem_cons_self c rest)
    have hrest : ∀ d ∈ rest, ereMeta d = false :=
      fun d hd => h d (List.mem_cons_of_mem c hd)
    by_cases hsl : c = '/'
    · subst hsl
      rw [show escapeFirstSlash ('/' :: rest) = '\\' :: '/' :: rest by
            rw [escapeFirstSlash.eq_def]; simp]
      rw [parseAtoms.eq_def]
      simp [parseAtoms_literal rest hrest]
    · have hbs : ¬(c = '\\') := fun he => by simp [he, ereMeta] at hc
      have hdot : ¬(c = '.') := fun he => by simp [he, ereMeta] at hc
      rw [show escapeFirstSlash (c :: rest) = c :: escapeFirstSlash rest by
            rw [escapeFirstSlash.eq_def]; simp [hsl]]
      rw [parseAtoms.eq_def]
      simp [hbs, hdot, hc, ih hrest]

theorem matchAtoms_lit_iff (l m : List Char) :
    matchAtoms (l.map Atom.lit) m = true ↔ l = m := by
  induction l generalizing m with
  | nil => cases m <;> simp [matchAtoms]
  | cons c rest ih =>
    cases m with
    | nil => simp [matchAtoms]
    | cons d ds => simp [matchAtoms, ih]

theorem triggerMatches_literal (t : String) (tok : List Char)
    (h : ∀ c ∈ t.toList, ereMeta c = false) :
    triggerMatches t tok = true ↔ t.toList = tok := by
  rw [triggerMatches, parseAtoms_escaped_literal t.toList h]
  exact matchAtoms_lit_iff t.toList tok

theorem toList_mk (l : List Char) : (String.mk l).toList = l := rfl

/-- C3 counterexample: a registry whose only trigger is the valid word
containing a dot wildcard is accepted by validation, yet the classifier
fires on the token teXst-with-slash, which equals no registered trigger
word, and a full classification of such a comment continues. -/
theorem trigger_exact_equality_counterexample :
    validateConfig
        { platform := Platform.github,
          checks := [{ name := "t", trigger := "/te.st",
                       kind := CheckKind.test "x" none,
                       mustRun := true, mustPass := true }],
          ciTrigger := "/checks", generateApprovalOverride := true,
          branches := ["main"] } = Except.ok () ∧
    firedTrigger
        { platform := Platform.github,
          checks := [{ name := "t", trigger := "/te.st",
                       kind := CheckKind.test "x" none,
                       mustRun := true, mustPass := true }],
          ciTrigger := "/checks", generateApprovalOverride := true,
          branches := ["main"] } "/teXst".toList = some "/teXst".toList ∧
    ("/teXst" : String) ∉
      allTriggers
        { platform := Platform.github,
          checks := [{ name := "t", trigger := "/te.st",
                       kind := CheckKind.test "x" none,
                       mustRun := true, mustPass := true }],
          ciTrigger := "/checks", generateApprovalOverride := true,
          branches := ["main"] } ∧
    (classifyComment
        { platform := Platform.github,
          checks := [{ name := "t", trigger := "/te.st",
                       kind := CheckKind.test "x" none,
                       mustRun := true, mustPass := true }],
          ciTrigger := "/checks", generateApprovalOverride := true,
          branches := ["main"] }
        { issueIsPr := true, prNumber := "7", commenter := "alice",
          body := "/teXst" }
        { permission := some "write", prHttpCode := 200,
          prHeadSha := some "abc" }).shouldContinue = true := by
  refine ⟨by rfl, by decide, by decide, by decide⟩

/-- C3 (amended): when every registered trigger word starts with the
sentinel slash and contains no ERE metacharacter — the words are then
matched literally — the classifier fires exactly when the first
whitespace-delimited token of the first non-blank line equals one of the
registered trigger words, and a comment matching no trigger word never
continues.  (The emitted bash interpolates raw trigger words into an
anchored regular expression, so a word containing a metacharacter can also
fire on tokens that merely match it, as the counterexample shows.) -/
theorem trigger_exact_match_literal (cfg : InputConfig) (body : List Char)
    (hlit : ∀ t ∈ allTriggers cfg,
      (∀ c ∈ t.toList, ereMeta c = false) ∧ t.toList.head? = some '/') :
    (firedTrigger cfg body = some (candidateToken body) ↔
      String.mk (candidateToken body) ∈ allTriggers cfg) ∧
    (firedTrigger cfg body = none ↔
      String.mk (candidateToken body) ∉ allTriggers cfg) ∧
    (∀ (ev : CommentEvent) (host : HostResponses), ev.body.toList = body →
      firedTrigger cfg body = none →
      (classifyComment cfg ev host).shouldContinue = false) := by
  have hany : ((allTriggers cfg).any
      (fun t => triggerMatches t (candidateToken body)) = true) ↔
      String.mk (candidateToken body) ∈ allTriggers cfg := by
    rw [List.any_eq_true]
    constructor
    · rintro ⟨t, hmem, hmat⟩
      have := (triggerMatches_literal t _ (hlit t hmem).1).mp hmat
      have ht : t = String.mk (candidateToken body) := by
        apply String.ext
        simpa [toList_mk] using this
      rw [← ht]
      exact hmem
    · intro hmem
      refine ⟨String.mk (candidateToken body), hmem, ?_⟩
      exact (triggerMatches_literal _ _ (hlit _ hmem).1).mpr (toList_mk _)
  have hne : String.mk (candidateToken body) ∈ allTriggers cfg →
      candidateToken body ≠ [] := by
    intro hmem hnil
    have hh := (hlit _ hmem).2
    rw [toList_mk, hnil] at hh
    cases hh
  have hfired : firedTrigger cfg body =
      if String.mk (candidateToken body) ∈ allTriggers cfg then
        some (candidateToken body)
      else none := by
    rw [firedTrigger]
    by_cases hmem : String.mk (candidateToken body) ∈ allTriggers cfg
    · rw [if_pos hmem, if_pos ⟨hne hmem, hany.mpr hmem⟩]
    · rw [if_neg hmem, if_neg]
      intro hcond
      exact hmem (hany.mp hcond.2)
  refine ⟨?_, ?_, ?_⟩
  · by_cases hmem : String.mk (candidateToken body) ∈ allTriggers cfg <;>
      simp [hfired, hmem]
  · by_cases hmem : String.mk (candidateToken body) ∈ allTriggers cfg <;>
      simp [hfired, hmem]
  · intro ev host hbody hnone
    have hnone2 : firedTrigger cfg ev.body.data = none := by
      rw [show ev.body.data = body from hbody]
      exact hnone
    cases hpr : ev.issueIsPr with
    | false => simp [classifyComment, hpr]
    | true =>
      by_cases hpg : permGatePasses cfg host = true
      · simp [classifyComment, hpr, hpg, hnone2]
      · simp [classifyComment, hpr, hpg]

/-- Witness for trigger_exact_match_literal at a registry of literal
trigger words and the body of a matching comment. -/
theorem trigger_exact_match_literal_witness :
    (∀ t ∈ allTriggers
        { platform := Platform.github,
          checks := [{ name := "t", trigger := "/test",
                       kind := CheckKind.test "x" none,
                       mustRun := true, mustPass := true }],
          ciTrigger := "/checks", generateApprovalOverride := true,
          branches := ["main"] },
      (∀ c ∈ t.toList, ereMeta c = false) ∧ t.toList.head? = some '/') ∧
    ((firedTrigger
        { platform := Platform.github,
          checks := [{ name := "t", trigger := "/test",
                       kind := CheckKind.test "x" none,
                       mustRun := true, mustPass := true }],
          ciTrigger := "/checks", generateApprovalOverride := true,
          branches := ["main"] } "/test hello".toList =
        some (candidateToken "/test hello".toList) ↔
      String.mk (candidateToken "/test hello".toList) ∈
        allTriggers
          { platform := Platform.github,
            checks := [{ name := "t", trigger := "/test",
                         kind := CheckKind.test "x" none,
                         mustRun := true, mustPass := true }],
            ciTrigger := "/checks", generateApprovalOverride := true,
            branches := ["main"] })) :=
  ⟨by decide,
   (trigger_exact_match_literal
     { platform := Platform.github,
       checks := [{ name := "t", trigger := "/test",
                    kind := CheckKind.test "x" none,
                    mustRun := true, mustPass := true }],
       ciTrigger := "/checks", generateApprovalOverride := true,
       branches := ["main"] } "/test hello".toList (by decide)).1⟩

theorem splitLines_ne_nil (l : List Char) : splitLines l ≠ [] := by
  induction l with
  | nil => simp [splitLines]
  | cons c rest ih =>
    rw [splitLines.eq_def]
    by_cases h : c = '\n' <;> simp [h]
    cases hsp : splitLines rest <;> simp

theorem trimBy_eq_nil_iff (p : Char → Bool) (l : List Char) :
    ((l.dropWhile p).reverse.dropWhile p).reverse = [] ↔ l.all p = true := by
  simp only [List.reverse_eq_nil_iff, List.dropWhile_eq_nil_iff, List.mem_reverse,
    List.all_eq_true]
  constructor
  · intro h x hx
    rw [← List.takeWhile_append_dropWhile (p := p) (l := l)] at hx
    rcases List.mem_append.mp hx with htk | hdr
    · exact List.mem_takeWhile_imp htk
    · exact h x hdr
  · intro h x hx
    refine h x ?_
    rw [← List.takeWhile_append_dropWhile (p := p) (l := l)]
    exact List.mem_append_right _ hx

theorem splitLines_cons_newline (rest : List Char) :
    splitLines ('\n' :: rest) = [] :: splitLines rest := by
  rw [splitLines.eq_def]
  simp

theorem splitLines_cons_other (c : Char) (rest : List Char) (hc : ¬(c = '\n'))
    (l0 : List Char) (ls0 : List (List Char)) (hsp : splitLines rest = l0 :: ls0) :
    splitLines (c :: rest) = (c :: l0) :: ls0 := by
  rw [splitLines.eq_def]
  simp [hc, hsp]

theorem allLines_blank_iff (l : List Char) :
    (∀ ln ∈ splitLines l, isBlankLine ln = true) ↔ l.all isWsChar = true := by
  induction l with
  | nil => simp [splitLines, isBlankLine]
  | cons c rest ih =>
    by_cases hc : c = '\n'
    · subst hc
      rw [splitLines_cons_newline, List.all_cons]
      constructor
      · intro h
        have h2 : rest.all isWsChar = true :=
          ih.mp (fun ln hln => h ln (List.mem_cons_of_mem _ hln))
        simp [isWsChar, h2]
      · intro h
        have h2 : rest.all isWsChar = true := by
          have hsplit : isWsChar '\n' = true ∧ rest.all isWsChar = true := by
            simpa using h
          exact hsplit.2
        intro ln hln
        rcases List.mem_cons.mp hln with rfl | hln2
        · simp [isBlankLine]
        · exact ih.mpr h2 ln hln2
    · cases hsp : splitLines rest with
      | nil => exact absurd hsp (splitLines_ne_nil rest)
      | cons l0 ls0 =>
        rw [splitLines_cons_other c rest hc l0 ls0 hsp, List.all_cons]
        rw [hsp] at ih
        have hwc : isWsChar c = isBlankChar c := by simp [isWsChar, hc]
        constructor
        · intro h
          have h0 : isBlankLine (c :: l0) = true := h _ (List.mem_cons_self _ _)
          have h0' : isBlankChar c = true ∧ l0.all isBlankChar = true := by
            simpa [isBlankLine, List.all_cons] using h0
          have hallrest : rest.all isWsChar = true := by
            refine ih.mp ?_
            intro ln hln
            rcases List.mem_cons.mp hln with rfl | hln2
            · simpa [isBlankLine] using h0'.2
            · exact h ln (List.mem_cons_of_mem _ hln2)
          rw [hwc]
          simp [h0'.1, hallrest]
        · intro h
          have hsplit : isWsChar c = true ∧ rest.all isWsChar = true := by
            simpa using h
          have h1 : isWsChar c = true := hsplit.1
          have h2 : rest.all isWsChar = true := hsplit.2
          have hrest := ih.mpr h2
          intro ln hln
          rcases List.mem_cons.mp hln with rfl | hln2
          · have hl0 : isBlankLine l0 = true := hrest _ (List.mem_cons_self _ _)
            have hbc : isBlankChar c = true := by rw [hwc] at h1; exact h1
            simp only [isBlankLine, List.all_cons, hbc, Bool.true_and]
            simpa [isBlankLine] using hl0
          · exact hrest ln (List.mem_cons_of_mem _ hln2)

theorem trimmedMessage_eq_nil_iff (msg : List Char) :
    trimmedMessage msg = [] ↔ msg.all isWsChar = true := by
  rw [trimmedMessage, List.flatten_eq_nil_iff, ← allLines_blank_iff]
  constructor
  · intro h ln hln
    have := h (trimLine ln) (List.mem_map_of_mem trimLine hln)
    have htl : trimLine ln = [] := this
    simpa [isBlankLine] using (trimBy_eq_nil_iff isBlankChar ln).mp htl
  · intro h x hx
    rcases List.mem_map.mp hx with ⟨ln, hln, rfl⟩
    refine (trimBy_eq_nil_iff isBlankChar ln).mpr ?_
    simpa [isBlankLine] using h ln hln

theorem noNewline_splitLines (l : List Char) (h : '\n' ∉ l) :
    splitLines l = [l] := by
  induction l with
  | nil => rfl
  | cons c rest ih =>
    have hc : ¬(c = '\n') := fun he => h (he ▸ List.mem_cons_self c rest)
    have hrest : splitLines rest = [rest] :=
      ih (fun hm => h (List.mem_cons_of_mem c hm))
    rw [splitLines.eq_def]
    simp [hc, hrest]

theorem splitLines_append_newline (l r : List Char) (h : '\n' ∉ l) :
    splitLines (l ++ '\n' :: r) = l :: splitLines r := by
  induction l with
  | nil =>
    rw [List.nil_append, splitLines.eq_def]
    simp
  | cons c l ih =>
    have hc : ¬(c = '\n') := fun he => h (he ▸ List.mem_cons_self c l)
    have hl := ih (fun hm => h (List.mem_cons_of_mem c hm))
    rw [List.cons_append, splitLines.eq_def]
    simp [hc, hl]

theorem splitLines_joinLines :
    ∀ ls : List (List Char), ls ≠ [] → (∀ l ∈ ls, '\n' ∉ l) →
      splitLines (joinLines ls) = ls := by
  intro ls
  induction ls with
  | nil => intro h _; exact absurd rfl h
  | cons l ls ih =>
    intro _ hnl
    cases ls with
    | nil =>
      rw [show joinLines [l] = l from rfl]
      exact noNewline_splitLines l (hnl l (List.mem_cons_self l []))
    | cons l2 ls2 =>
      rw [show joinLines (l :: l2 :: ls2) = l ++ '\n' :: joinLines (l2 :: ls2) from rfl]
      rw [splitLines_append_newline l _ (hnl l (List.mem_cons_self l _))]
      rw [ih (by simp) (fun x hx => hnl x (List.mem_cons_of_mem _ hx))]

/-- C4: officiality is equivalent to the user message trimming to nothing;
the message of a body whose first line is non-blank is the remainder of
that line after its first token (omitted when empty) followed by every
subsequent line with the newline structure preserved; and the two worked
examples of the specification hold through the full classifier. -/
theorem user_message_extraction :
    (∀ body : List Char,
      isOfficialOf body = true ↔ specTrim (userMessageChars body) = []) ∧
    (∀ (first : List Char) (rest : List (List Char)),
      '\n' ∉ first → (∀ l ∈ rest, '\n' ∉ l) → isBlankLine first = false →
      userMessageChars (joinLines (first :: rest)) =
        stripTrailingNewlines
          (joinLines
            ((if stripTokenWs first = [] then [] else [stripTokenWs first]) ++ rest))) ∧
    classifyComment
        { platform := Platform.github,
          checks := [{ name := "ai-review", trigger := "/review",
                       kind := CheckKind.review "bedrock" (some "m") (some "K") none none,
                       mustRun := true, mustPass := false }],
          ciTrigger := "/checks", generateApprovalOverride := true,
          branches := ["main"] }
        { issueIsPr := true, prNumber := "7", commenter := "alice",
          body := "/review\nplease check security" }
        { permission := some "write", prHttpCode := 200,
          prHeadSha := some "abc123" } =
      { shouldContinue := true, prNumber := "7", headSha := "abc123",
        trigger := "/review", userMessage := "please check security",
        isOfficial := false } ∧
    classifyComment
        { platform := Platform.github,
          checks := [{ name := "ai-review", trigger := "/review",
                       kind := CheckKind.review "bedrock" (some "m") (some "K") none none,
                       mustRun := true, mustPass := false }],
          ciTrigger := "/checks", generateApprovalOverride := true,
          branches := ["main"] }
        { issueIsPr := true, prNumber := "7", commenter := "alice",
          body := "/review" }
        { permission := some "write", prHttpCode := 200,
          prHeadSha := some "abc123" } =
      { shouldContinue := true, prNumber := "7", headSha := "abc123",
        trigger := "/review", userMessage := "", isOfficial := true } := by
  refine ⟨?_, ?_, by decide, by decide⟩
  · intro body
    rw [isOfficialOf, List.isEmpty_iff, trimmedMessage_eq_nil_iff,
      ← trimBy_eq_nil_iff isWsChar]
    exact Iff.rfl
  · intro first rest hfirst hrest hnb
    rw [userMessageChars, rawMessageLines,
      splitLines_joinLines (first :: rest) (by simp)
        (by
          intro l hl
          rcases List.mem_cons.mp hl with rfl | hl2
          · exact hfirst
          · exact hrest l hl2)]
    rw [List.dropWhile_cons, if_neg (by simp [hnb])]

/-- Witness for user_message_extraction: the officiality equivalence at the
two-line example body, and the decomposition at its two lines. -/
theorem user_message_extraction_witness :
    (isOfficialOf "/review\nplease check security".toList = true ↔
      specTrim (userMessageChars "/review\nplease check security".toList) = []) ∧
    (('\n' ∉ "/review x".toList) ∧ (∀ l ∈ [" tail".toList], '\n' ∉ l) ∧
      isBlankLine "/review x".toList = false ∧
      userMessageChars (joinLines ("/review x".toList :: [" tail".toList])) =
        stripTrailingNewlines
          (joinLines
            ((if stripTokenWs "/review x".toList = [] then []
              else [stripTokenWs "/review x".toList]) ++ [" tail".toList]))) :=
  ⟨user_message_extraction.1 "/review\nplease check security".toList,
   by decide, by decide, by decide,
   user_message_extraction.2.1 "/review x".toList [" tail".toList]
     (by decide) (by decide) (by decide)⟩

/-- C5: on github the permission gate passes exactly when the collaborators
lookup returned one of owner, admin, maintain or write; on gitea the gate
ignores the lookup entirely and always passes; and a comment whose gate
fails never continues. -/
theorem permission_gate_platforms :
    (∀ (cfg : InputConfig) (host : HostResponses), cfg.platform = Platform.github →
      (permGatePasses cfg host = true ↔
        ∃ p, host.permission = some p ∧
          (p = "owner" ∨ p = "admin" ∨ p = "maintain" ∨ p = "write"))) ∧
    (∀ (cfg : InputConfig) (host : HostResponses), cfg.platform = Platform.gitea →
      permGatePasses cfg host = true) ∧
    (∀ (cfg : InputConfig) (ev : CommentEvent) (host : HostResponses),
      permGatePasses cfg host = false →
      (classifyComment cfg ev host).shouldContinue = false) := by
  refine ⟨?_, ?_, ?_⟩
  · intro cfg host hg
    rw [permGatePasses, hg]
    cases hperm : host.permission with
    | none => simp [permissionValue, hperm]
    | some p =>
      by_cases hp : p = ""
      · subst hp
        simp [permissionValue, hperm]
      · simp only [permissionValue, hperm, if_neg hp, permittedLevel,
          Bool.or_eq_true, beq_iff_eq, Option.some.injEq]
        constructor
        · intro h
          exact ⟨p, rfl, by tauto⟩
        · rintro ⟨q, rfl, hq⟩
          tauto
  · intro cfg host hg
    rw [permGatePasses, hg]
    simp [permissionValue, permittedLevel]
  · intro cfg ev host h
    cases hpr : ev.issueIsPr with
    | false => simp [classifyComment, hpr]
    | true => simp [classifyComment, hpr, h]

/-- Witness for permission_gate_platforms: a github lookup answering write
passes, a gitea event with a failed lookup passes, and a github event with
permission read is classified continue false. -/
theorem permission_gate_platforms_witness :
    ((permGatePasses
        { platform := Platform.github,
          checks := [{ name := "t", trigger := "/t",
                       kind := CheckKind.test "x" none,
                       mustRun := true, mustPass := true }],
          ciTrigger := "/checks", generateApprovalOverride := true,
          branches := ["main"] }
        { permission := some "write", prHttpCode := 200,
          prHeadSha := some "s" } = true ↔
      ∃ p, (some "write" : Option String) = some p ∧
        (p = "owner" ∨ p = "admin" ∨ p = "maintain" ∨ p = "write")) ∧
     permGatePasses
        { platform := Platform.gitea,
          checks := [{ name := "t", trigger := "/t",
                       kind := CheckKind.test "x" none,
                       mustRun := true, mustPass := true }],
          ciTrigger := "/checks", generateApprovalOverride := true,
          branches := ["main"] }
        { permission := none, prHttpCode := 200, prHeadSha := some "s" } = true) ∧
    (classifyComment
        { platform := Platform.github,
          checks := [{ name := "t", trigger := "/t",
                       kind := CheckKind.test "x" none,
                       mustRun := true, mustPass := true }],
          ciTrigger := "/checks", generateApprovalOverride := true,
          branches := ["main"] }
        { issueIsPr := true, prNumber := "7", commenter := "bob",
          body := "/t" }
        { permission := some "read", prHttpCode := 200,
          prHeadSha := some "s" }).shouldContinue = false :=
  ⟨⟨permission_gate_platforms.1
      { platform := Platform.github,
        checks := [{ name := "t", trigger := "/t",
                     kind := CheckKind.test "x" none,
                     mustRun := true, mustPass := true }],
        ciTrigger := "/checks", generateApprovalOverride := true,
        branches := ["main"] }
      { permission := some "write", prHttpCode := 200, prHeadSha := some "s" }
      rfl,
    permission_gate_platforms.2.1
      { platform := Platform.gitea,
        checks := [{ name := "t", trigger := "/t",
                     kind := CheckKind.test "x" none,
                     mustRun := true, mustPass := true }],
        ciTrigger := "/checks", generateApprovalOverride := true,
        branches := ["main"] }
      { permission := none, prHttpCode := 200, prHeadSha := some "s" } rfl⟩,
   permission_gate_platforms.2.2
     { platform := Platform.github,
       checks := [{ name := "t", trigger := "/t",
                    kind := CheckKind.test "x" none,
                    mustRun := true, mustPass := true }],
       ciTrigger := "/checks", generateApprovalOverride := true,
       branches := ["main"] }
     { issueIsPr := true, prNumber := "7", commenter := "bob", body := "/t" }
     { permission := some "read", prHttpCode := 200, prHeadSha := some "s" }
     (by decide)⟩

/-- C9: a failed permission lookup on github, a pull-request fetch that
does not answer HTTP 200, or a fetch without a head SHA each force the
classification of the comment to continue false. -/
theorem host_read_failure_aborts (cfg : InputConfig) (ev : CommentEvent)
    (host : HostResponses)
    (h : (cfg.platform = Platform.github ∧ host.permission = none) ∨
         host.prHttpCode ≠ 200 ∨ host.prHeadSha = none) :
    (classifyComment cfg ev host).shouldContinue = false := by
  cases hpr : ev.issueIsPr with
  | false => simp [classifyComment, hpr]
  | true =>
    by_cases hpg : permGatePasses cfg host = true
    · rcases h with ⟨hgh, hperm⟩ | hcode | hsha
      · rw [permGatePasses, hgh] at hpg
        simp [permissionValue, hperm] at hpg
      · cases hft : firedTrigger cfg ev.body.data with
        | none => simp [classifyComment, hpr, hpg, hft]
        | some trig =>
          by_cases hpn : ev.prNumber = ""
          · simp [classifyComment, hpr, hpg, hft, hpn]
          · simp [classifyComment, hpr, hpg, hft, hpn, hcode]
      · cases hft : firedTrigger cfg ev.body.data with
        | none => simp [classifyComment, hpr, hpg, hft]
        | some trig =>
          by_cases hpn : ev.prNumber = ""
          · simp [classifyComment, hpr, hpg, hft, hpn]
          · by_cases hcode : host.prHttpCode = 200
            · simp [classifyComment, hpr, hpg, hft, hpn, hcode, hsha]
            · simp [classifyComment, hpr, hpg, hft, hpn, hcode]
    · simp [classifyComment, hpr, hpg]

/-- Witness for host_read_failure_aborts at a github comment whose
permission lookup failed. -/
theorem host_read_failure_aborts_witness :
    ((({ platform := Platform.github,
         checks := [{ name := "t", trigger := "/t",
                      kind := CheckKind.test "x" none,
                      mustRun := true, mustPass := true }],
         ciTrigger := "/checks", generateApprovalOverride := true,
         branches := ["main"] } : InputConfig).platform = Platform.github ∧
       (({ permission := none, prHttpCode := 200, prHeadSha := some "s" } :
          HostResponses).permission = none)) ∨
      (({ permission := none, prHttpCode := 200, prHeadSha := some "s" } :
          HostResponses).prHttpCode ≠ 200) ∨
      (({ permission := none, prHttpCode := 200, prHeadSha := some "s" } :
          HostResponses).prHeadSha = none)) ∧
    (classifyComment
        { platform := Platform.github,
          checks := [{ name := "t", trigger := "/t",
                       kind := CheckKind.test "x" none,
                       mustRun := true, mustPass := true }],
          ciTrigger := "/checks", generateApprovalOverride := true,
          branches := ["main"] }
        { issueIsPr := true, prNumber := "7", commenter := "bob",
          body := "/t" }
        { permission := none, prHttpCode := 200,
          prHeadSha := some "s" }).shouldContinue = false :=
  ⟨Or.inl ⟨rfl, rfl⟩,
   host_read_failure_aborts
     { platform := Platform.github,
       checks := [{ name := "t", trigger := "/t",
                    kind := CheckKind.test "x" none,
                    mustRun := true, mustPass := true }],
       ciTrigger := "/checks", generateApprovalOverride := true,
       branches := ["main"] }
     { issueIsPr := true, prNumber := "7", commenter := "bob", body := "/t" }
     { permission := none, prHttpCode := 200, prHeadSha := some "s" }
     (Or.inl ⟨rfl, rfl⟩)⟩

/-- C6: for an approved submitted review on a configured branch, the
override job is a no-op when the latest aggregate gate status is already
success, and otherwise posts a success gate status whose description
carries the override keyword and the approver, followed by a notification
comment on the PR. -/
theorem override_gate_transition (cfg : InputConfig) (ev : ReviewEvent)
    (st : List StatusEntry)
    (hsub : ev.action = "submitted") (happ : ev.reviewState = "approved")
    (hbr : ev.baseRef ∈ cfg.branches) :
    (latestState st prChecksStatusContext = "success" →
      overrideGateJob cfg ev st = []) ∧
    (latestState st prChecksStatusContext ≠ "success" →
      overrideGateJob cfg ev st =
        [HostAction.setStatus prChecksStatusContext "success"
           (OVERRIDE_DESCRIPTION ++ " (@" ++ ev.reviewerLogin ++ ")"),
         HostAction.postComment ev.prNumber] ∧
      List.IsInfix OVERRIDE_KEYWORD.toList
        (OVERRIDE_DESCRIPTION ++ " (@" ++ ev.reviewerLogin ++ ")").toList ∧
      List.IsInfix ev.reviewerLogin.toList
        (OVERRIDE_DESCRIPTION ++ " (@" ++ ev.reviewerLogin ++ ")").toList) := by
  have htrig : overrideJobTriggered cfg ev = true := by
    rw [overrideJobTriggered, hsub, happ]
    simp only [beq_self_eq_true, Bool.true_and, List.any_eq_true]
    exact ⟨ev.baseRef, hbr, by simp⟩
  rw [overrideGateJob, if_pos htrig]
  constructor
  · intro h
    rw [overrideGateRun, if_neg]
    simp [h]
  · intro h
    refine ⟨by rw [overrideGateRun, if_pos]; simpa [bne] using h, ?_, ?_⟩
    · refine List.IsPrefix.isInfix ⟨(" by approval (@".toList ++
        ev.reviewerLogin.toList ++ ")".toList), ?_⟩
      rw [show OVERRIDE_DESCRIPTION = OVERRIDE_KEYWORD ++ " by approval"
            from by decide]
      show OVERRIDE_KEYWORD.data ++ _ = _
      simp [String.data_append, List.append_assoc]
    · refine ⟨(OVERRIDE_DESCRIPTION ++ " (@").toList, ")".toList, ?_⟩
      show _ ++ ev.reviewerLogin.data ++ _ = _
      simp [String.data_append, List.append_assoc]

/-- Witness for override_gate_transition at a concrete approved review over
an empty status history and over an already-successful gate. -/
theorem override_gate_transition_witness :
    (({ action := "submitted", reviewState := "approved", baseRef := "main",
        reviewerLogin := "alice", prNumber := "12", headSha := "s" } :
        ReviewEvent).action = "submitted" ∧
     ({ action := "submitted", reviewState := "approved", baseRef := "main",
        reviewerLogin := "alice", prNumber := "12", headSha := "s" } :
        ReviewEvent).reviewState = "approved" ∧
     ({ action := "submitted", reviewState := "approved", baseRef := "main",
        reviewerLogin := "alice", prNumber := "12", headSha := "s" } :
        ReviewEvent).baseRef ∈
       ({ platform := Platform.github,
          checks := [{ name := "t", trigger := "/t",
                       kind := CheckKind.test "x" none,
                       mustRun := true, mustPass := true }],
          ciTrigger := "/checks", generateApprovalOverride := true,
          branches := ["main"] } : InputConfig).branches) ∧
    ((latestState [] prChecksStatusContext = "success" →
       overrideGateJob
         { platform := Platform.github,
           checks := [{ name := "t", trigger := "/t",
                        kind := CheckKind.test "x" none,
                        mustRun := true, mustPass := true }],
           ciTrigger := "/checks", generateApprovalOverride := true,
           branches := ["main"] }
         { action := "submitted", reviewState := "approved", baseRef := "main",
           reviewerLogin := "alice", prNumber := "12", headSha := "s" } [] = []) ∧
     (latestState [] prChecksStatusContext ≠ "success" →
       overrideGateJob
         { platform := Platform.github,
           checks := [{ name := "t", trigger := "/t",
                        kind := CheckKind.test "x" none,
                        mustRun := true, mustPass := true }],
           ciTrigger := "/checks", generateApprovalOverride := true,
           branches := ["main"] }
         { action := "submitted", reviewState := "approved", baseRef := "main",
           reviewerLogin := "alice", prNumber := "12", headSha := "s" } [] =
         [HostAction.setStatus prChecksStatusContext "success"
            (OVERRIDE_DESCRIPTION ++ " (@" ++ "alice" ++ ")"),
          HostAction.postComment "12"] ∧
       List.IsInfix OVERRIDE_KEYWORD.toList
         (OVERRIDE_DESCRIPTION ++ " (@" ++ "alice" ++ ")").toList ∧
       List.IsInfix ("alice" : String).toList
         (OVERRIDE_DESCRIPTION ++ " (@" ++ "alice" ++ ")").toList)) :=
  ⟨⟨rfl, rfl, by decide⟩,
   override_gate_transition
     { platform := Platform.github,
       checks := [{ name := "t", trigger := "/t",
                    kind := CheckKind.test "x" none,
                    mustRun := true, mustPass := true }],
       ciTrigger := "/checks", generateApprovalOverride := true,
       branches := ["main"] }
     { action := "submitted", reviewState := "approved", baseRef := "main",
       reviewerLogin := "alice", prNumber := "12", headSha := "s" } []
     rfl rfl (by decide)⟩

/-- C7: after a dismissal with no remaining approved review, while the
latest aggregate gate status is an override success (success state with the
override keyword in its description) and some mandatory check still fails
its pass predicate, the restore job writes the gate back to failure with
the standard approval-required description and notifies. -/
theorem restore_gate_transition (cfg : InputConfig) (ev : ReviewEvent)
    (reviews : List Review) (st : List StatusEntry) (g : StatusEntry)
    (hdis : ev.action = "dismissed")
    (hnoapp : ∀ r ∈ reviews, r.state ≠ "APPROVED")
    (hg : latestFor st prChecksStatusContext = some g)
    (hstate : g.state = "success")
    (hkey : descHasOverrideKeyword g.description = true)
    (c : Check) (hmem : c ∈ requiredChecks cfg)
    (hfail : checkGateFails st c = true) :
    restoreGateJob cfg ev reviews st =
      [HostAction.setStatus prChecksStatusContext "failure" approvalRequiredMsg,
       HostAction.postComment ev.prNumber] := by
  have hgate : (evaluateGate cfg st).1 = true := by
    have hsome : (List.find? (checkGateFails st) (requiredChecks cfg).reverse).isSome := by
      rw [List.find?_isSome]
      exact ⟨c, List.mem_reverse.mpr hmem, hfail⟩
    obtain ⟨d, hd⟩ := Option.isSome_iff_exists.mp hsome
    rw [evaluateGate_eq]
    rw [show lastFailing st (requiredChecks cfg) = some d from hd]
  have hany : (reviews.any (fun r => r.state == "APPROVED")) = false := by
    rw [List.any_eq_false]
    intro r hr
    simpa using hnoapp r hr
  rw [restoreGateJob, hdis]
  simp only [beq_self_eq_true, if_pos]
  rw [restoreGateRun, if_neg (by simp [hany]), hg]
  simp only [hstate, hkey, beq_self_eq_true, Bool.and_self, if_pos, hgate]

/-- Witness for restore_gate_transition: one failing mandatory check, no
remaining approval, and an override-success gate status. -/
theorem restore_gate_transition_witness :
    (({ action := "dismissed", reviewState := "dismissed", baseRef := "main",
        reviewerLogin := "alice", prNumber := "12", headSha := "s" } :
        ReviewEvent).action = "dismissed" ∧
     (∀ r ∈ ([] : List Review), r.state ≠ "APPROVED") ∧
     latestFor
        [⟨"PR Checks Status", "success", "Overridden by approval (@alice)", 1⟩]
        prChecksStatusContext =
       some ⟨"PR Checks Status", "success", "Overridden by approval (@alice)", 1⟩ ∧
     (⟨"PR Checks Status", "success", "Overridden by approval (@alice)", 1⟩ :
        StatusEntry).state = "success" ∧
     descHasOverrideKeyword
       (⟨"PR Checks Status", "success", "Overridden by approval (@alice)", 1⟩ :
          StatusEntry).description = true ∧
     ({ name := "t", trigger := "/t", kind := CheckKind.test "x" none,
        mustRun := true, mustPass := true } : Check) ∈
       requiredChecks
         { platform := Platform.github,
           checks := [{ name := "t", trigger := "/t",
                        kind := CheckKind.test "x" none,
                        mustRun := true, mustPass := true }],
           ciTrigger := "/checks", generateApprovalOverride := true,
           branches := ["main"] } ∧
     checkGateFails
        [⟨"PR Checks Status", "success", "Overridden by approval (@alice)", 1⟩]
        { name := "t", trigger := "/t", kind := CheckKind.test "x" none,
          mustRun := true, mustPass := true } = true) ∧
    restoreGateJob
        { platform := Platform.github,
          checks := [{ name := "t", trigger := "/t",
                       kind := CheckKind.test "x" none,
                       mustRun := true, mustPass := true }],
          ciTrigger := "/checks", generateApprovalOverride := true,
          branches := ["main"] }
        { action := "dismissed", reviewState := "dismissed", baseRef := "main",
          reviewerLogin := "alice", prNumber := "12", headSha := "s" }
        []
        [⟨"PR Checks Status", "success", "Overridden by approval (@alice)", 1⟩] =
      [HostAction.setStatus prChecksStatusContext "failure" approvalRequiredMsg,
       HostAction.postComment "12"] :=
  ⟨⟨rfl, by simp, by decide, rfl, by decide, by decide, by decide⟩,
   restore_gate_transition
     { platform := Platform.github,
       checks := [{ name := "t", trigger := "/t",
                    kind := CheckKind.test "x" none,
                    mustRun := true, mustPass := true }],
       ciTrigger := "/checks", generateApprovalOverride := true,
       branches := ["main"] }
     { action := "dismissed", reviewState := "dismissed", baseRef := "main",
       reviewerLogin := "alice", prNumber := "12", headSha := "s" }
     []
     [⟨"PR Checks Status", "success", "Overridden by approval (@alice)", 1⟩]
     ⟨"PR Checks Status", "success", "Overridden by approval (@alice)", 1⟩
     rfl (by simp) (by decide) rfl (by decide)
     { name := "t", trigger := "/t", kind := CheckKind.test "x" none,
       mustRun := true, mustPass := true }
     (by decide) (by decide)⟩

end PrChecks
